import Mathlib

/-!
Verification of the PAM / k-medoids clustering core: a shallow embedding of
the Point entity and the KMedoidsAlgorithm orchestrator, followed by theorems
about assignment, swap-cost evaluation, construction and swapping.

Modelling conventions:
* Python floats are modelled by rationals; the pluggable distance function is
  an explicit parameter valued in the rationals.
* The value np.nan (used as a sentinel) and Python None are modelled by the
  dedicated constructors nan and none of PyFloat and PyRef.
* Point identifiers are natural numbers; the data model requires identifiers
  to be unique across a run, so Python object identity (the default == on
  Point objects and membership tests on lists of Points) is rendered as
  structural equality, with uniqueness of identifiers as a hypothesis where a
  theorem depends on it; references to medoid objects stored in assignment
  fields are rendered by the identifier of the referenced medoid.
* Methods that can raise are rendered as Except-valued functions; a method
  that can both mutate its receiver and raise returns the receiver state
  together with the Except result, the state being the input state whenever
  the result is an error (Python raises before any mutation in those paths).
-/

/-- A Python float-or-sentinel slot: None, np.nan or an actual number. -/
inductive PyFloat where
  | none
  | nan
  | val (q : ℚ)
deriving DecidableEq, Repr

/-- A Python slot holding a reference to a medoid Point, or a sentinel.
The referenced Point is rendered by its identifier. -/
inductive PyRef where
  | none
  | nan
  | ref (idx : Nat)
deriving DecidableEq, Repr

/-- Python exceptions raised by the modelled code. -/
inductive PyErr where
  | valueError (msg : String)
  | typeError (msg : String)
  | indexError (msg : String)
  | keyError (k : String)
deriving DecidableEq, Repr

/-- Coordinates of a point: an ordered sequence of named rational values,
as consumed by the pluggable distance function. -/
abbrev Coords := List (String × ℚ)

/-- The Point entity of point.py: an identifier, a coordinate vector, and the
mutable nearest / second-nearest medoid assignment state, all fields
initialised by the constructor. -/
structure Point where
  idx : Nat
  coordinates : Coords
  nearest_medoid : PyRef
  nearest_medoid_distance : PyFloat
  second_nearest_medoid : PyRef
  second_nearest_medoid_distance : PyFloat
deriving DecidableEq, Repr

/-- Python comparison distance < slot, as used inside
update_cluster_assignment. A comparison against np.nan is False. A comparison
against None would raise a TypeError in Python; inside the scan the distance
fields are never None (they are reset to np.nan before the loop), so the
unreachable case is rendered as false. -/
def pyLt (a : ℚ) : PyFloat → Bool
  | .val b => decide (a < b)
  | .nan => false
  | .none => false

/-- Python comparison distance >= slot, as used inside
compute_medoid_replacement_cost, where the slot can legitimately be None
(a point whose assignment was never computed): that comparison raises a
TypeError; a comparison against np.nan is False. -/
def pyGe (a : ℚ) : PyFloat → Except PyErr Bool
  | .val b => .ok (decide (b ≤ a))
  | .nan => .ok false
  | .none => .error (.typeError "unsupported operand for >=: float and NoneType")

/-- Python subtraction slot - slot: propagates np.nan, raises a TypeError on
None. -/
def pySub : PyFloat → PyFloat → Except PyErr PyFloat
  | .val a, .val b => .ok (.val (a - b))
  | .val _, .nan => .ok .nan
  | .nan, .val _ => .ok .nan
  | .nan, .nan => .ok .nan
  | _, _ => .error (.typeError "unsupported operand for -: NoneType")

/-- Python subtraction number - slot. -/
def pySubL (a : ℚ) : PyFloat → Except PyErr PyFloat
  | .val b => .ok (.val (a - b))
  | .nan => .ok .nan
  | .none => .error (.typeError "unsupported operand for -: float and NoneType")

/-- Python equality between an assignment slot and a Point argument, as in
the test of compute_medoid_replacement_cost comparing self.nearest_medoid
with medoid_to_change. None == point and nan == point are False; equality of
two Point objects is object identity, rendered as equality of identifiers
(identifiers are unique across a run). -/
def refEqPoint : PyRef → Point → Bool
  | .ref i, m => decide (i = m.idx)
  | .none, _ => false
  | .nan, _ => false

/-- One iteration of the scan loop of Point.update_cluster_assignment:
maintain the running nearest / second-nearest pair against one more medoid. -/
def assignStep (dist : Coords → Coords → ℚ) (self medoid : Point) : Point :=
  let distance := dist self.coordinates medoid.coordinates
  if self.nearest_medoid = PyRef.nan ∨ pyLt distance self.nearest_medoid_distance then
    { self with
      second_nearest_medoid := self.nearest_medoid
      second_nearest_medoid_distance := self.nearest_medoid_distance
      nearest_medoid := PyRef.ref medoid.idx
      nearest_medoid_distance := PyFloat.val distance }
  else
    if self.second_nearest_medoid = PyRef.nan ∨ pyLt distance self.second_nearest_medoid_distance then
      { self with
        second_nearest_medoid := PyRef.ref medoid.idx
        second_nearest_medoid_distance := PyFloat.val distance }
    else
      self

/-- Point.update_cluster_assignment of point.py: if the point is one of the
given medoids, only the nearest_medoid field is set (to the point itself);
otherwise all four assignment fields are reset to np.nan and every medoid is
scanned once, keeping the two smallest distances. -/
def Point.update_cluster_assignment (dist : Coords → Coords → ℚ)
    (self : Point) (medoids : List Point) : Point :=
  if self ∈ medoids then
    { self with nearest_medoid := PyRef.ref self.idx }
  else
    List.foldl (assignStep dist)
      { self with
        nearest_medoid := PyRef.nan
        nearest_medoid_distance := PyFloat.nan
        second_nearest_medoid := PyRef.nan
        second_nearest_medoid_distance := PyFloat.nan }
      medoids

/-- Point.compute_medoid_replacement_cost of point.py. The first component of
the result is the state of the receiver after the call (the method performs
no assignment, so it is the input state on every path); the second is the
returned cost, or the exception raised. -/
def Point.compute_medoid_replacement_cost (dist : Coords → Coords → ℚ)
    (self : Point) (medoid_to_change new_medoid : Point) (medoids : List Point) :
    Point × Except PyErr PyFloat :=
  if self ∈ medoids then
    (self, .ok (.val 0))
  else
    let new_medoid_distance := dist self.coordinates new_medoid.coordinates
    if refEqPoint self.nearest_medoid medoid_to_change then
      match pyGe new_medoid_distance self.second_nearest_medoid_distance with
      | .error e => (self, .error e)
      | .ok true =>
          (self, pySub self.second_nearest_medoid_distance self.nearest_medoid_distance)
      | .ok false =>
          (self, pySubL new_medoid_distance self.nearest_medoid_distance)
    else
      match pyGe new_medoid_distance self.nearest_medoid_distance with
      | .error e => (self, .error e)
      | .ok true => (self, .ok (.val 0))
      | .ok false => (self, pySubL new_medoid_distance self.nearest_medoid_distance)

/-- Brute-force minimum of a list of distances (the comparison oracle of the
testable properties in the spec). -/
def listMin : List ℚ → Option ℚ
  | [] => Option.none
  | a :: l =>
    match listMin l with
    | Option.none => some a
    | some m => some (min a m)

/-- Brute-force second-smallest of a list of distances: the minimum of the
list with one occurrence of its minimum removed. -/
def secondMin (l : List ℚ) : Option ℚ :=
  match listMin l with
  | Option.none => Option.none
  | some m => listMin (l.erase m)

/-- A cluster label as produced by the label mapper: a user-supplied string
or the zero-based position of the medoid. -/
inductive Label where
  | str (s : String)
  | pos (n : Nat)
deriving DecidableEq, Repr

/-- A value stored in a cell of the result table. -/
inductive Cell where
  | nat (n : Nat)
  | flt (f : PyFloat)
  | coord (q : ℚ)
  | lab (l : Label)
  | pyNone
  | pyNaN
deriving DecidableEq, Repr

/-- A reference slot rendered as a table cell: a medoid reference becomes the
identifier of the medoid, the sentinels stay sentinels. -/
def refCell : PyRef → Cell
  | .ref i => .nat i
  | .none => .pyNone
  | .nan => .pyNaN

/-- Modelled from the spec: Point.get_data, called by
KMedoidsAlgorithm.get_result_df, is not among the provided source files. Per
the spec and the docstring of get_result_df, it produces the record of the
point: its identifier, nearest and second-nearest medoid identifier and
distance, and all original coordinates under their names, in that column
order. -/
def Point.get_data (p : Point) : List (String × Cell) :=
  [("idx", Cell.nat p.idx),
   ("nearest_medoid", refCell p.nearest_medoid),
   ("nearest_medoid_distance", Cell.flt p.nearest_medoid_distance),
   ("second_nearest_medoid", refCell p.second_nearest_medoid),
   ("second_nearest_medoid_distance", Cell.flt p.second_nearest_medoid_distance)]
  ++ p.coordinates.map (fun c => (c.1, Cell.coord c.2))

/-- The KMedoidsAlgorithm orchestrator state of k_medoids_algorithm.py. -/
structure KMedoidsAlgorithm where
  points : List Point
  clusters_num : Int
  labels : Option (List String)
  medoids_indices : List Nat
deriving DecidableEq, Repr

/-- Models CPython random.sample(population, k), as called by
get_initial_medoids_indices: it raises a ValueError unless
0 <= k <= len(population), and otherwise returns the elements of the
population at k distinct randomly chosen positions; the random choice of
positions is supplied explicitly as the argument choose (theorems that rely
on the contract of the sampler assume choose holds k distinct in-range
positions). -/
def random_sample (population : List Nat) (k : Int) (choose : List Nat) :
    Except PyErr (List Nat) :=
  if 0 ≤ k ∧ k ≤ (population.length : Int) then
    .ok (choose.filterMap (fun i => population[i]?))
  else
    .error (.valueError "Sample larger than population or is negative")

/-- Python truthiness of the optional labels argument: None and the empty
list are falsy. -/
def labelsTruthy : Option (List String) → Bool
  | Option.none => false
  | some l => !l.isEmpty

/-- Length of the optional labels argument, read only when it is supplied. -/
def labelsLen : Option (List String) → Nat
  | Option.none => 0
  | some l => l.length

/-- KMedoidsAlgorithm.__init__ combined with get_initial_medoids_indices:
first the label count check (raising a ValueError on a truthy labels argument
whose length differs from clusters_num), then the random sampling of the
initial medoid identifiers from the identifiers of the points. -/
def KMedoidsAlgorithm.init (points : List Point) (clusters_num : Int)
    (labels : Option (List String)) (choose : List Nat) :
    Except PyErr KMedoidsAlgorithm :=
  if labelsTruthy labels ∧ ¬((labelsLen labels : Int) = clusters_num) then
    .error (.valueError "Number of labels needs to be the same as the number of clusters.")
  else
    (random_sample (points.map Point.idx) clusters_num choose).map
      (fun mi =>
        { points := points
          clusters_num := clusters_num
          labels := labels
          medoids_indices := mi })

/-- KMedoidsAlgorithm.prepare_medoids: the points whose identifier is a
current medoid identifier, in original point order. -/
def KMedoidsAlgorithm.prepare_medoids (a : KMedoidsAlgorithm) : List Point :=
  a.points.filter (fun p => a.medoids_indices.contains p.idx)

/-- KMedoidsAlgorithm.update_clusters_assignment: reassign every point
against the current medoids. -/
def KMedoidsAlgorithm.update_clusters_assignment (dist : Coords → Coords → ℚ)
    (a : KMedoidsAlgorithm) : KMedoidsAlgorithm :=
  let medoids := a.prepare_medoids
  { a with points := a.points.map (fun p => p.update_cluster_assignment dist medoids) }

/-- KMedoidsAlgorithm.get_labels_mapper: the dictionary from medoid
identifier to label; the supplied labels are used only when the labels
argument is truthy and its length matches clusters_num, otherwise positional
labels are used. Rendered as the association list of the insertions in
order. -/
def KMedoidsAlgorithm.get_labels_mapper (a : KMedoidsAlgorithm) : List (Nat × Label) :=
  match a.labels with
  | some l =>
      if !l.isEmpty ∧ (l.length : Int) = a.clusters_num then
        (l.zip a.medoids_indices).map (fun pr => (pr.2, Label.str pr.1))
      else
        a.medoids_indices.enum.map (fun pr => (pr.2, Label.pos pr.1))
  | Option.none => a.medoids_indices.enum.map (fun pr => (pr.2, Label.pos pr.1))

/-- First-binding lookup in an association list. -/
def alookup {α β : Type} [DecidableEq α] (k : α) : List (α × β) → Option β
  | [] => Option.none
  | (k', v) :: rest => if k' = k then some v else alookup k rest

/-- Lookup in a Python dictionary rendered as its insertion list: the last
binding of a key wins. -/
def dictLookup (d : List (Nat × Label)) (k : Nat) : Option Label :=
  alookup k d.reverse

/-- pandas Series.replace with a dictionary keyed by medoid identifiers:
a cell holding an identifier bound in the mapper becomes the mapped label,
every other cell is untouched. -/
def replaceCell (mapper : List (Nat × Label)) (c : Cell) : Cell :=
  match c with
  | .nat i =>
      match dictLookup mapper i with
      | some lab => .lab lab
      | Option.none => .nat i
  | other => other

/-- rows[key].append(value) over the columnar accumulator of get_result_df. -/
def dfAppend (rows : List (String × List Cell)) (k : String) (v : Cell) :
    List (String × List Cell) :=
  rows.map (fun col => if col.1 = k then (col.1, col.2 ++ [v]) else col)

/-- The inner loop of get_result_df over the items of one record: append each
value to its column, raising a KeyError when a key is not a column. -/
def appendItems : List (String × List Cell) → List (String × Cell) →
    Except PyErr (List (String × List Cell))
  | rows, [] => .ok rows
  | rows, (k, v) :: rest =>
      if k ∈ rows.map Prod.fst then appendItems (dfAppend rows k v) rest
      else .error (.keyError k)

/-- pandas column assignment result[k] = cells: overwrite the column when it
exists, otherwise append it on the right. -/
def dfSetColumn (rows : List (String × List Cell)) (k : String)
    (cells : List Cell) : List (String × List Cell) :=
  if k ∈ rows.map Prod.fst then
    rows.map (fun col => if col.1 = k then (k, cells) else col)
  else
    rows ++ [(k, cells)]

/-- KMedoidsAlgorithm.get_result_df: build the columnar table keyed by the
record keys of the first point, append every record of every point, then add
the cluster column as a copy of the nearest_medoid column with the label
mapper applied. -/
def KMedoidsAlgorithm.get_result_df (a : KMedoidsAlgorithm) :
    Except PyErr (List (String × List Cell)) :=
  match a.points with
  | [] => .error (.indexError "list index out of range")
  | p0 :: _ =>
      match a.points.foldlM (fun rows p => appendItems rows p.get_data)
          (p0.get_data.map (fun kv => (kv.1, ([] : List Cell)))) with
      | .error e => .error e
      | .ok rows =>
          match alookup "nearest_medoid" rows with
          | Option.none => .error (.keyError "nearest_medoid")
          | some cells =>
              .ok (dfSetColumn rows "cluster"
                (cells.map (replaceCell a.get_labels_mapper)))

/-- KMedoidsAlgorithm.swap_medoids: list.remove(old_medoid.idx) followed by
append(new_medoid.idx). list.remove raises a ValueError, before any mutation,
when the identifier is absent; the first component of the result is the
orchestrator state after the call. -/
def KMedoidsAlgorithm.swap_medoids (a : KMedoidsAlgorithm)
    (old_medoid new_medoid : Point) : KMedoidsAlgorithm × Except PyErr Unit :=
  if old_medoid.idx ∈ a.medoids_indices then
    ({ a with medoids_indices :=
        a.medoids_indices.erase old_medoid.idx ++ [new_medoid.idx] }, .ok ())
  else
    (a, .error (.valueError "list.remove(x): x not in list"))

/-- The data-model invariant on the medoid identifiers: exactly clusters_num
of them, pairwise distinct, all identifiers of points of the run. -/
def MedoidsInvariant (a : KMedoidsAlgorithm) : Prop :=
  a.medoids_indices.length = a.clusters_num.toNat ∧
  a.medoids_indices.Nodup ∧
  ∀ i ∈ a.medoids_indices, i ∈ a.points.map Point.idx

/-- The cell recorded for point p in column k of the result table: the value
bound to k in the record of p (every key of the shared column set is bound in
every record, so the default is never read). -/
def rowVal (p : Point) (k : String) : Cell :=
  (alookup k p.get_data).getD (Cell.nat 0)

/-- Invariant of the scan loop of Point.update_cluster_assignment, relating
the running state sigma to the prefix P of medoids already processed for a
point whose pre-scan value is p0: identifier and coordinates are untouched;
before the first medoid everything is the np.nan reset value; afterwards the
nearest distance is the brute-force minimum of the distances to P, and the
second-nearest distance is the brute-force second-smallest as soon as two
medoids have been seen. -/
def ScanInv (dist : Coords → Coords → ℚ) (p0 : Point) (P : List Point) (σ : Point) : Prop :=
  σ.idx = p0.idx ∧ σ.coordinates = p0.coordinates ∧
  ((P = [] ∧ σ.nearest_medoid = PyRef.nan ∧ σ.nearest_medoid_distance = PyFloat.nan ∧
      σ.second_nearest_medoid = PyRef.nan ∧ σ.second_nearest_medoid_distance = PyFloat.nan) ∨
   (∃ m j, listMin (P.map (fun md => dist p0.coordinates md.coordinates)) = some m ∧
      σ.nearest_medoid = PyRef.ref j ∧ σ.nearest_medoid_distance = PyFloat.val m ∧
      ((P.length = 1 ∧ σ.second_nearest_medoid = PyRef.nan ∧
          σ.second_nearest_medoid_distance = PyFloat.nan) ∨
       (2 ≤ P.length ∧
        ∃ s j', secondMin (P.map (fun md => dist p0.coordinates md.coordinates)) = some s ∧
          σ.second_nearest_medoid = PyRef.ref j' ∧
          σ.second_nearest_medoid_distance = PyFloat.val s ∧ m ≤ s))))

/-- A concrete distance function for the worked examples: squared Euclidean
distance over the shared coordinate names. -/
def distEx (a b : Coords) : ℚ :=
  ((a.zip b).map (fun pr => (pr.1.2 - pr.2.2) * (pr.1.2 - pr.2.2))).foldl (fun x y => x + y) 0

/-- A freshly constructed one-dimensional point, all assignment fields still
None, as after Point.__init__. -/
def mkPt (i : Nat) (x : ℚ) : Point :=
  { idx := i
    coordinates := [("x", x)]
    nearest_medoid := PyRef.none
    nearest_medoid_distance := PyFloat.none
    second_nearest_medoid := PyRef.none
    second_nearest_medoid_distance := PyFloat.none }

/-- A point carrying assignment fields from an earlier reassignment pass. -/
def stalePt : Point :=
  { idx := 1
    coordinates := [("x", 0)]
    nearest_medoid := PyRef.ref 2
    nearest_medoid_distance := PyFloat.val 7
    second_nearest_medoid := PyRef.ref 3
    second_nearest_medoid_distance := PyFloat.val 9 }

/-- Three concrete points for the worked examples. -/
def ptsW : List Point := [mkPt 1 0, mkPt 2 1, mkPt 3 5]

/-- A concrete orchestrator state over ptsW with medoid identifiers 1 and 2. -/
def algoW : KMedoidsAlgorithm :=
  { points := ptsW, clusters_num := 2, labels := Option.none, medoids_indices := [1, 2] }

/-- A concrete point with computed assignment fields: the medoid itself. -/
def asgPt1 : Point :=
  { idx := 1
    coordinates := [("x", 0)]
    nearest_medoid := PyRef.ref 1
    nearest_medoid_distance := PyFloat.none
    second_nearest_medoid := PyRef.none
    second_nearest_medoid_distance := PyFloat.none }

/-- A concrete point with computed assignment fields: a non-medoid assigned
to the single medoid. -/
def asgPt2 : Point :=
  { idx := 2
    coordinates := [("x", 1)]
    nearest_medoid := PyRef.ref 1
    nearest_medoid_distance := PyFloat.val 1
    second_nearest_medoid := PyRef.nan
    second_nearest_medoid_distance := PyFloat.nan }

/-- A concrete orchestrator state with assignments computed, for the result
materialisation example. -/
def algoR : KMedoidsAlgorithm :=
  { points := [asgPt1, asgPt2], clusters_num := 1, labels := Option.none,
    medoids_indices := [1] }

/-- Decidable equality of Except results, for evaluating the orchestrator
operations on concrete inputs. -/
instance exceptDecidableEq {ε α : Type} [DecidableEq ε] [DecidableEq α] :
    DecidableEq (Except ε α) := fun x y =>
  match x, y with
  | .ok a, .ok b =>
      if h : a = b then .isTrue (congrArg Except.ok h)
      else .isFalse (fun hc => h (Except.ok.inj hc))
  | .error e, .error f =>
      if h : e = f then .isTrue (congrArg Except.error h)
      else .isFalse (fun hc => h (Except.error.inj hc))
  | .ok _, .error _ => .isFalse (fun hc => Except.noConfusion hc)
  | .error _, .ok _ => .isFalse (fun hc => Except.noConfusion hc)

/-- listMin is none exactly on the empty list. -/
theorem listMin_eq_none {l : List ℚ} : listMin l = Option.none ↔ l = [] := by
  cases l with
  | nil => simp [listMin]
  | cons a t =>
    simp only [listMin]
    cases h : listMin t <;> simp

/-- The brute-force minimum is an element of the list. -/
theorem listMin_mem : ∀ {l : List ℚ} {m : ℚ}, listMin l = some m → m ∈ l := by
  intro l
  induction l with
  | nil => intro m h; simp [listMin] at h
  | cons a t ih =>
    intro m h
    cases ht : listMin t with
    | none =>
      simp only [listMin, ht] at h
      simp [← Option.some.inj h]
    | some m' =>
      simp only [listMin, ht] at h
      rcases min_choice a m' with hc | hc <;> rw [← Option.some.inj h, hc]
      · exact List.mem_cons_self a t
      · exact List.mem_cons_of_mem a (ih ht)

/-- The brute-force minimum is a lower bound of the list. -/
theorem listMin_le : ∀ {l : List ℚ} {m : ℚ}, listMin l = some m → ∀ x ∈ l, m ≤ x := by
  intro l
  induction l with
  | nil => intro m h; simp [listMin] at h
  | cons a t ih =>
    intro m h x hx
    cases ht : listMin t with
    | none =>
      have : t = [] := listMin_eq_none.mp ht
      subst this
      simp only [listMin, Option.some.injEq] at h
      rcases List.mem_singleton.mp hx with rfl
      exact le_of_eq h.symm
    | some m' =>
      simp only [listMin, ht, Option.some.injEq] at h
      rcases List.mem_cons.mp hx with hxa | hx'
      · rw [hxa, ← h]; exact min_le_left a m'
      · rw [← h]; exact le_trans (min_le_right a m') (ih ht x hx')

/-- Appending one distance to a list combines with the brute-force minimum. -/
theorem listMin_concat (l : List ℚ) (d : ℚ) :
    listMin (l ++ [d]) = some ((listMin l).elim d (fun m => min m d)) := by
  induction l with
  | nil => simp [listMin]
  | cons a t ih =>
    cases ht : listMin t with
    | none =>
      have : t = [] := listMin_eq_none.mp ht
      subst this
      simp [listMin]
    | some m =>
      have l1 : listMin (a :: (t ++ [d])) = some (min a (min m d)) := by
        rw [listMin, ih, ht]
        simp [Option.elim]
      have l2 : listMin (a :: t) = some (min a m) := by
        rw [listMin, ht]
      rw [List.cons_append, l1, l2]
      simp only [Option.elim]
      rw [min_assoc]

/-- One iteration of the scan loop preserves the loop invariant. -/
theorem scanInv_step (dist : Coords → Coords → ℚ) (p0 med : Point) (P : List Point)
    (σ : Point) (h : ScanInv dist p0 P σ) :
    ScanInv dist p0 (P ++ [med]) (assignStep dist σ med) := by
  obtain ⟨hidx, hco, hrest⟩ := h
  have hmap : (P ++ [med]).map (fun md => dist p0.coordinates md.coordinates) =
      P.map (fun md => dist p0.coordinates md.coordinates) ++
        [dist p0.coordinates med.coordinates] := by simp
  rcases hrest with ⟨hP, h1, h2, h3, h4⟩ | ⟨m, j, hmin, h1, h2, hsec⟩
  · subst hP
    have hstep : assignStep dist σ med =
        { σ with
          second_nearest_medoid := σ.nearest_medoid
          second_nearest_medoid_distance := σ.nearest_medoid_distance
          nearest_medoid := PyRef.ref med.idx
          nearest_medoid_distance := PyFloat.val (dist p0.coordinates med.coordinates) } := by
      simp [assignStep, h1, hco]
    rw [hstep]
    refine ⟨hidx, hco, Or.inr ⟨dist p0.coordinates med.coordinates, med.idx, ?_, rfl, rfl,
      Or.inl ⟨by simp, ?_, ?_⟩⟩⟩
    · simp [listMin]
    · exact h1
    · exact h2
  · have hPne : P ≠ [] := by
      intro hP0
      rw [hP0] at hmin
      simp [listMin] at hmin
    have hlenP : 1 ≤ P.length := by
      cases P with
      | nil => exact absurd rfl hPne
      | cons a t => simp
    set d := dist p0.coordinates med.coordinates with hd
    set ds := P.map (fun md => dist p0.coordinates md.coordinates) with hds
    by_cases hdm : d < m
    · have hstep : assignStep dist σ med =
          { σ with
            second_nearest_medoid := σ.nearest_medoid
            second_nearest_medoid_distance := σ.nearest_medoid_distance
            nearest_medoid := PyRef.ref med.idx
            nearest_medoid_distance := PyFloat.val d } := by
        simp [assignStep, h1, h2, pyLt, hco, hdm, ← hd]
      rw [hstep]
      have hmin' : listMin (ds ++ [d]) = some d := by
        rw [listMin_concat, hmin]
        simp [Option.elim, min_eq_right (le_of_lt hdm)]
      have hdnotin : d ∉ ds := by
        intro hmem
        exact absurd (listMin_le hmin d hmem) (not_le.mpr hdm)
      have herase : (ds ++ [d]).erase d = ds := by
        rw [List.erase_append_right _ hdnotin]
        simp
      have hsec' : secondMin (ds ++ [d]) = some m := by
        have e1 : secondMin (ds ++ [d]) = listMin ((ds ++ [d]).erase d) := by
          rw [secondMin, hmin']
        rw [e1, herase]
        exact hmin
      refine ⟨hidx, hco, Or.inr ⟨d, med.idx, ?_, rfl, rfl,
        Or.inr ⟨?_, m, j, ?_, h1, h2, le_of_lt hdm⟩⟩⟩
      · rw [hmap]; exact hmin'
      · simp; omega
      · rw [hmap]; exact hsec'
    · rcases hsec with ⟨hP1, h3, h4⟩ | ⟨hP2, s, j', hsmin, h3, h4, hms⟩
      · have hstep : assignStep dist σ med =
            { σ with
              second_nearest_medoid := PyRef.ref med.idx
              second_nearest_medoid_distance := PyFloat.val d } := by
          simp [assignStep, h1, h2, h3, pyLt, hco, hdm, ← hd]
        rw [hstep]
        have hds1 : ds = [m] := by
          have hl : ds.length = 1 := by rw [hds]; simp [hP1]
          obtain ⟨x, hx⟩ := List.length_eq_one.mp hl
          rw [hx] at hmin ⊢
          simp [listMin] at hmin
          rw [hmin]
        have hmin' : listMin (ds ++ [d]) = some m := by
          rw [listMin_concat, hmin]
          simp [Option.elim, min_eq_left (not_lt.mp hdm)]
        have hsec' : secondMin (ds ++ [d]) = some d := by
          have e1 : secondMin (ds ++ [d]) = listMin ((ds ++ [d]).erase m) := by
            rw [secondMin, hmin']
          rw [e1, hds1]
          simp [listMin]
        refine ⟨hidx, hco, Or.inr ⟨m, j, ?_, h1, h2,
          Or.inr ⟨?_, d, med.idx, ?_, rfl, rfl, not_lt.mp hdm⟩⟩⟩
        · rw [hmap]; exact hmin'
        · simp [hP1]
        · rw [hmap]; exact hsec'
      · have hsm2 : listMin (ds.erase m) = some s := by
          rw [secondMin, hmin] at hsmin
          exact hsmin
        have hmin' : listMin (ds ++ [d]) = some m := by
          rw [listMin_concat, hmin]
          simp [Option.elim, min_eq_left (not_lt.mp hdm)]
        have herase : (ds ++ [d]).erase m = ds.erase m ++ [d] :=
          List.erase_append_left _ (listMin_mem hmin)
        by_cases hds2 : d < s
        · have hstep : assignStep dist σ med =
              { σ with
                second_nearest_medoid := PyRef.ref med.idx
                second_nearest_medoid_distance := PyFloat.val d } := by
            simp [assignStep, h1, h2, h3, h4, pyLt, hco, hdm, hds2, ← hd]
          rw [hstep]
          have hsec' : secondMin (ds ++ [d]) = some d := by
            have e1 : secondMin (ds ++ [d]) = listMin ((ds ++ [d]).erase m) := by
              rw [secondMin, hmin']
            rw [e1, herase, listMin_concat, hsm2]
            simp [Option.elim, min_eq_right (le_of_lt hds2)]
          refine ⟨hidx, hco, Or.inr ⟨m, j, ?_, h1, h2,
            Or.inr ⟨?_, d, med.idx, ?_, rfl, rfl, not_lt.mp hdm⟩⟩⟩
          · rw [hmap]; exact hmin'
          · simp; omega
          · rw [hmap]; exact hsec'
        · have hstep : assignStep dist σ med = σ := by
            simp [assignStep, h1, h2, h3, h4, pyLt, hco, hdm, hds2, ← hd]
          rw [hstep]
          have hsec' : secondMin (ds ++ [d]) = some s := by
            have e1 : secondMin (ds ++ [d]) = listMin ((ds ++ [d]).erase m) := by
              rw [secondMin, hmin']
            rw [e1, herase, listMin_concat, hsm2]
            simp [Option.elim, min_eq_left (not_lt.mp hds2)]
          refine ⟨hidx, hco, Or.inr ⟨m, j, ?_, h1, h2,
            Or.inr ⟨?_, s, j', ?_, h3, h4, hms⟩⟩⟩
          · rw [hmap]; exact hmin'
          · simp; omega
          · rw [hmap]; exact hsec'

/-- The scan loop, run from a state satisfying the invariant for a prefix,
ends in a state satisfying the invariant for the whole list. -/
theorem scanInv_foldl (dist : Coords → Coords → ℚ) (p0 : Point) (L : List Point) :
    ∀ (P : List Point) (σ : Point), ScanInv dist p0 P σ →
      ScanInv dist p0 (P ++ L) (List.foldl (assignStep dist) σ L) := by
  induction L with
  | nil => intro P σ h; simpa using h
  | cons med L ih =>
    intro P σ h
    have h' := scanInv_step dist p0 med P σ h
    have h'' := ih (P ++ [med]) _ h'
    simpa [List.append_assoc] using h''

/-- For a non-medoid point, update_cluster_assignment ends in a state
satisfying the scan invariant for the full medoid list. -/
theorem scanInv_update (dist : Coords → Coords → ℚ) (p : Point) (medoids : List Point)
    (hp : p ∉ medoids) :
    ScanInv dist p medoids (p.update_cluster_assignment dist medoids) := by
  rw [Point.update_cluster_assignment, if_neg hp]
  have h0 : ScanInv dist p []
      { p with
        nearest_medoid := PyRef.nan
        nearest_medoid_distance := PyFloat.nan
        second_nearest_medoid := PyRef.nan
        second_nearest_medoid_distance := PyFloat.nan } := by
    exact ⟨rfl, rfl, Or.inl ⟨rfl, rfl, rfl, rfl, rfl⟩⟩
  simpa using scanInv_foldl dist p medoids [] _ h0

/-- Claim C2: for every non-medoid point and every non-empty medoid list,
after update_cluster_assignment the nearest distance equals the brute-force
minimum of the distances to the medoids (an element of the distance list
bounding it from below); with at least two medoids the second-nearest
distance equals the brute-force second-smallest and the nearest distance is
at most the second-nearest distance; with exactly one medoid the
second-nearest fields stay at the unassigned np.nan sentinel. -/
theorem c2_assignment_matches_brute_force (dist : Coords → Coords → ℚ) (p : Point)
    (medoids : List Point) (hp : p ∉ medoids) (hne : medoids ≠ []) :
    (∃ m, listMin (medoids.map (fun md => dist p.coordinates md.coordinates)) = some m ∧
       (p.update_cluster_assignment dist medoids).nearest_medoid_distance = PyFloat.val m ∧
       m ∈ medoids.map (fun md => dist p.coordinates md.coordinates) ∧
       ∀ x ∈ medoids.map (fun md => dist p.coordinates md.coordinates), m ≤ x) ∧
    (2 ≤ medoids.length →
      ∃ m s, listMin (medoids.map (fun md => dist p.coordinates md.coordinates)) = some m ∧
        secondMin (medoids.map (fun md => dist p.coordinates md.coordinates)) = some s ∧
        (p.update_cluster_assignment dist medoids).nearest_medoid_distance = PyFloat.val m ∧
        (p.update_cluster_assignment dist medoids).second_nearest_medoid_distance =
          PyFloat.val s ∧
        m ≤ s) ∧
    (medoids.length = 1 →
      (p.update_cluster_assignment dist medoids).second_nearest_medoid = PyRef.nan ∧
      (p.update_cluster_assignment dist medoids).second_nearest_medoid_distance =
        PyFloat.nan) := by
  have hinv := scanInv_update dist p medoids hp
  obtain ⟨hidx, hco, hrest⟩ := hinv
  rcases hrest with ⟨hP, _⟩ | ⟨m, j, hmin, h1, h2, hsec⟩
  · exact absurd hP hne
  · refine ⟨⟨m, hmin, h2, listMin_mem hmin, listMin_le hmin⟩, ?_, ?_⟩
    · intro h2le
      rcases hsec with ⟨hP1, _, _⟩ | ⟨_, s, j', hsmin, _, h4, hms⟩
      · omega
      · exact ⟨m, s, hmin, hsmin, h2, h4, hms⟩
    · intro hP1
      rcases hsec with ⟨_, h3, h4⟩ | ⟨hP2, _⟩
      · exact ⟨h3, h4⟩
      · omega

/-- Witness for C2 at a concrete input: the point at 0 against medoids at 1
and at 5, squared Euclidean distances 1 and 25. -/
theorem c2_witness :
    (mkPt 1 0 ∉ [mkPt 2 1, mkPt 3 5] ∧ ([mkPt 2 1, mkPt 3 5] : List Point) ≠ []) ∧
    ((∃ m, listMin ([mkPt 2 1, mkPt 3 5].map
          (fun md => distEx (mkPt 1 0).coordinates md.coordinates)) = some m ∧
       ((mkPt 1 0).update_cluster_assignment distEx
          [mkPt 2 1, mkPt 3 5]).nearest_medoid_distance = PyFloat.val m ∧
       m ∈ [mkPt 2 1, mkPt 3 5].map (fun md => distEx (mkPt 1 0).coordinates md.coordinates) ∧
       ∀ x ∈ [mkPt 2 1, mkPt 3 5].map (fun md => distEx (mkPt 1 0).coordinates md.coordinates),
         m ≤ x) ∧
    (2 ≤ ([mkPt 2 1, mkPt 3 5] : List Point).length →
      ∃ m s, listMin ([mkPt 2 1, mkPt 3 5].map
          (fun md => distEx (mkPt 1 0).coordinates md.coordinates)) = some m ∧
        secondMin ([mkPt 2 1, mkPt 3 5].map
          (fun md => distEx (mkPt 1 0).coordinates md.coordinates)) = some s ∧
        ((mkPt 1 0).update_cluster_assignment distEx
          [mkPt 2 1, mkPt 3 5]).nearest_medoid_distance = PyFloat.val m ∧
        ((mkPt 1 0).update_cluster_assignment distEx
          [mkPt 2 1, mkPt 3 5]).second_nearest_medoid_distance = PyFloat.val s ∧
        m ≤ s) ∧
    (([mkPt 2 1, mkPt 3 5] : List Point).length = 1 →
      ((mkPt 1 0).update_cluster_assignment distEx
        [mkPt 2 1, mkPt 3 5]).second_nearest_medoid = PyRef.nan ∧
      ((mkPt 1 0).update_cluster_assignment distEx
        [mkPt 2 1, mkPt 3 5]).second_nearest_medoid_distance = PyFloat.nan)) :=
  ⟨⟨by decide, by decide⟩,
   c2_assignment_matches_brute_force distEx (mkPt 1 0) [mkPt 2 1, mkPt 3 5]
     (by decide) (by decide)⟩

/-- Claim C3 (amended): when the point is one of the given medoids,
update_cluster_assignment sets nearest_medoid to the point itself, computes
no distance (the result does not involve the distance function at all), and
leaves every other field, including both distance fields, unchanged from
before the call. -/
theorem c3_medoid_branch (dist : Coords → Coords → ℚ) (p : Point)
    (medoids : List Point) (hp : p ∈ medoids) :
    p.update_cluster_assignment dist medoids =
      { p with nearest_medoid := PyRef.ref p.idx } := by
  rw [Point.update_cluster_assignment, if_pos hp]

/-- Witness for the amended C3 at a concrete input. -/
theorem c3_witness :
    stalePt ∈ [stalePt] ∧
    stalePt.update_cluster_assignment distEx [stalePt] =
      { stalePt with nearest_medoid := PyRef.ref stalePt.idx } :=
  ⟨by decide, c3_medoid_branch distEx stalePt [stalePt] (by decide)⟩

/-- Counterexample to C3 as stated: a medoid point whose distance fields
hold values from an earlier pass keeps those numeric values after the call;
they do not become the is-a-medoid sentinel. -/
theorem c3_counterexample :
    stalePt ∈ [stalePt] ∧
    (stalePt.update_cluster_assignment distEx [stalePt]).nearest_medoid = PyRef.ref 1 ∧
    (stalePt.update_cluster_assignment distEx [stalePt]).nearest_medoid_distance =
      PyFloat.val 7 ∧
    (stalePt.update_cluster_assignment distEx [stalePt]).nearest_medoid_distance ≠
      PyFloat.nan ∧
    (stalePt.update_cluster_assignment distEx [stalePt]).second_nearest_medoid_distance =
      PyFloat.val 9 ∧
    (stalePt.update_cluster_assignment distEx [stalePt]).second_nearest_medoid_distance ≠
      PyFloat.nan := by
  decide

/-- Claim C4: compute_medoid_replacement_cost leaves all six fields of the
receiver unchanged, whatever the arguments. -/
theorem c4_cost_does_not_mutate (dist : Coords → Coords → ℚ) (p mtc nw : Point)
    (medoids : List Point) :
    (p.compute_medoid_replacement_cost dist mtc nw medoids).1.idx = p.idx ∧
    (p.compute_medoid_replacement_cost dist mtc nw medoids).1.coordinates = p.coordinates ∧
    (p.compute_medoid_replacement_cost dist mtc nw medoids).1.nearest_medoid =
      p.nearest_medoid ∧
    (p.compute_medoid_replacement_cost dist mtc nw medoids).1.nearest_medoid_distance =
      p.nearest_medoid_distance ∧
    (p.compute_medoid_replacement_cost dist mtc nw medoids).1.second_nearest_medoid =
      p.second_nearest_medoid ∧
    (p.compute_medoid_replacement_cost dist mtc nw medoids).1.second_nearest_medoid_distance =
      p.second_nearest_medoid_distance ∧
    (p.compute_medoid_replacement_cost dist mtc nw medoids).1 = p := by
  have h : (p.compute_medoid_replacement_cost dist mtc nw medoids).1 = p := by
    simp only [Point.compute_medoid_replacement_cost]
    split
    · rfl
    · split
      · split <;> rfl
      · split <;> rfl
  exact ⟨by rw [h], by rw [h], by rw [h], by rw [h], by rw [h], by rw [h], h⟩

/-- Claim C1: the swap cost of replacing old by nw, for a point assigned
against the current medoid set containing old and not containing nw: 0 when
the point is itself a medoid; min(second-nearest distance, distance to nw)
minus the nearest distance when its nearest medoid is the removed one (with
at least two medoids); and, when the nearest medoid is unaffected, the
distance to nw minus the nearest distance if that is an improvement, else
0. -/
theorem c1_swap_cost_formula (dist : Coords → Coords → ℚ) (p old nw : Point)
    (medoids : List Point) (hold : old ∈ medoids)
    (_hnw : ∀ md ∈ medoids, md.idx ≠ nw.idx) :
    (p ∈ medoids →
      p.compute_medoid_replacement_cost dist old nw medoids = (p, .ok (.val 0))) ∧
    ((∀ md ∈ medoids, md.idx ≠ p.idx) →
      (((p.update_cluster_assignment dist medoids).nearest_medoid = PyRef.ref old.idx →
        2 ≤ medoids.length →
        ∃ dn ds,
          (p.update_cluster_assignment dist medoids).nearest_medoid_distance =
            PyFloat.val dn ∧
          (p.update_cluster_assignment dist medoids).second_nearest_medoid_distance =
            PyFloat.val ds ∧
          (p.update_cluster_assignment dist medoids).compute_medoid_replacement_cost
              dist old nw medoids =
            (p.update_cluster_assignment dist medoids,
             .ok (.val (min ds (dist p.coordinates nw.coordinates) - dn)))) ∧
       ((p.update_cluster_assignment dist medoids).nearest_medoid ≠ PyRef.ref old.idx →
        ∃ dn,
          (p.update_cluster_assignment dist medoids).nearest_medoid_distance =
            PyFloat.val dn ∧
          (p.update_cluster_assignment dist medoids).compute_medoid_replacement_cost
              dist old nw medoids =
            (p.update_cluster_assignment dist medoids,
             .ok (.val (if dist p.coordinates nw.coordinates < dn
                        then dist p.coordinates nw.coordinates - dn
                        else 0)))))) := by
  constructor
  · intro hpm
    simp [Point.compute_medoid_replacement_cost, hpm]
  · intro hpm
    have hp : p ∉ medoids := fun hm => hpm p hm rfl
    have hinv := scanInv_update dist p medoids hp
    obtain ⟨hidx, hco, hrest⟩ := hinv
    set p' := p.update_cluster_assignment dist medoids with hpdef
    rcases hrest with ⟨hP, _⟩ | ⟨m, j, hmin, h1, h2, hsec⟩
    · exfalso
      rw [hP] at hold
      exact List.not_mem_nil old hold
    · have hp' : p' ∉ medoids := by
        intro hm
        exact hpm p' hm hidx
      constructor
      · intro hnr hlen
        rcases hsec with ⟨hP1, _, _⟩ | ⟨_, s, j', hsmin, h3, h4, hms⟩
        · omega
        · refine ⟨m, s, h2, h4, ?_⟩
          by_cases hges : s ≤ dist p.coordinates nw.coordinates
          · rw [min_eq_left hges]
            simp [Point.compute_medoid_replacement_cost, hp', hnr, refEqPoint, pyGe,
              h2, h4, pySub, hco, hges]
          · rw [min_eq_right (le_of_not_le hges)]
            simp [Point.compute_medoid_replacement_cost, hp', hnr, refEqPoint, pyGe,
              h2, h4, pySubL, hco, hges]
      · intro hnr
        have hj : ¬ (j = old.idx) := by
          intro heq
          exact hnr (by rw [h1, heq])
        refine ⟨m, h2, ?_⟩
        by_cases hgem : m ≤ dist p.coordinates nw.coordinates
        · rw [if_neg (not_lt.mpr hgem)]
          simp [Point.compute_medoid_replacement_cost, hp', h1, refEqPoint, pyGe,
            h2, hco, hgem, hj]
        · rw [if_pos (not_le.mp hgem)]
          simp [Point.compute_medoid_replacement_cost, hp', h1, refEqPoint, pyGe,
            h2, pySubL, hco, hgem, hj]

/-- Claim C10: against a single-medoid set, a non-medoid point assigned to
that medoid has its second-nearest fields at the unassigned np.nan sentinel,
and the swap cost of replacing the medoid is always the distance to the new
medoid minus the nearest distance: the comparison against the unassigned
second-nearest distance is false, so the fallback branch is never taken. -/
theorem c10_single_medoid_swap_cost (dist : Coords → Coords → ℚ) (p old nw : Point)
    (hid : old.idx ≠ p.idx) :
    (p.update_cluster_assignment dist [old]).nearest_medoid = PyRef.ref old.idx ∧
    (p.update_cluster_assignment dist [old]).nearest_medoid_distance =
      PyFloat.val (dist p.coordinates old.coordinates) ∧
    (p.update_cluster_assignment dist [old]).second_nearest_medoid_distance = PyFloat.nan ∧
    (p.update_cluster_assignment dist [old]).compute_medoid_replacement_cost
        dist old nw [old] =
      (p.update_cluster_assignment dist [old],
       .ok (.val (dist p.coordinates nw.coordinates -
                  dist p.coordinates old.coordinates))) := by
  have hpne : ¬ (p = old) := fun heq => hid (congrArg Point.idx heq).symm
  have hup : p.update_cluster_assignment dist [old] =
      { p with
        nearest_medoid := PyRef.ref old.idx
        nearest_medoid_distance := PyFloat.val (dist p.coordinates old.coordinates)
        second_nearest_medoid := PyRef.nan
        second_nearest_medoid_distance := PyFloat.nan } := by
    simp [Point.update_cluster_assignment, hpne, assignStep]
  have hrne : ¬ (({ p with
      nearest_medoid := PyRef.ref old.idx
      nearest_medoid_distance := PyFloat.val (dist p.coordinates old.coordinates)
      second_nearest_medoid := PyRef.nan
      second_nearest_medoid_distance := PyFloat.nan } : Point) = old) :=
    fun heq => hid (congrArg Point.idx heq).symm
  rw [hup]
  refine ⟨rfl, rfl, rfl, ?_⟩
  simp [Point.compute_medoid_replacement_cost, hrne, refEqPoint, pyGe, pySubL]

/-- Witness for C10 at a concrete input. -/
theorem c10_witness :
    (mkPt 2 1).idx ≠ (mkPt 1 0).idx ∧
    ((mkPt 1 0).update_cluster_assignment distEx [mkPt 2 1]).compute_medoid_replacement_cost
        distEx (mkPt 2 1) (mkPt 9 2) [mkPt 2 1] =
      ((mkPt 1 0).update_cluster_assignment distEx [mkPt 2 1],
       .ok (.val (distEx (mkPt 1 0).coordinates (mkPt 9 2).coordinates -
                  distEx (mkPt 1 0).coordinates (mkPt 2 1).coordinates))) :=
  ⟨by decide,
   (c10_single_medoid_swap_cost distEx (mkPt 1 0) (mkPt 2 1) (mkPt 9 2) (by decide)).2.2.2⟩

/-- Witness for C1 at a concrete input: the point at 0 with medoids at 1 and
5 (nearest is the medoid being replaced), candidate at 2; cost is
min(25, 4) - 1 = 3. -/
theorem c1_witness :
    (mkPt 2 1 ∈ [mkPt 2 1, mkPt 3 5] ∧
     (∀ md ∈ [mkPt 2 1, mkPt 3 5], Point.idx md ≠ (mkPt 9 2).idx) ∧
     (∀ md ∈ [mkPt 2 1, mkPt 3 5], Point.idx md ≠ (mkPt 1 0).idx) ∧
     2 ≤ ([mkPt 2 1, mkPt 3 5] : List Point).length) ∧
    (∃ dn ds,
      ((mkPt 1 0).update_cluster_assignment distEx
         [mkPt 2 1, mkPt 3 5]).nearest_medoid_distance = PyFloat.val dn ∧
      ((mkPt 1 0).update_cluster_assignment distEx
         [mkPt 2 1, mkPt 3 5]).second_nearest_medoid_distance = PyFloat.val ds ∧
      ((mkPt 1 0).update_cluster_assignment distEx
         [mkPt 2 1, mkPt 3 5]).compute_medoid_replacement_cost distEx (mkPt 2 1) (mkPt 9 2)
          [mkPt 2 1, mkPt 3 5] =
        ((mkPt 1 0).update_cluster_assignment distEx [mkPt 2 1, mkPt 3 5],
         .ok (.val (min ds (distEx (mkPt 1 0).coordinates (mkPt 9 2).coordinates) - dn)))) := by
  have hnr : ((mkPt 1 0).update_cluster_assignment distEx
      [mkPt 2 1, mkPt 3 5]).nearest_medoid = PyRef.ref (mkPt 2 1).idx := by
    norm_num [Point.update_cluster_assignment, assignStep, distEx, mkPt, pyLt]
    try rfl
  have happ := c1_swap_cost_formula distEx (mkPt 1 0) (mkPt 2 1) (mkPt 9 2)
      [mkPt 2 1, mkPt 3 5] (by decide) (by decide)
  exact ⟨⟨by decide, by decide, by decide, by decide⟩,
    (happ.2 (by decide)).1 hnr (by decide)⟩

/-- The contract of the modelled random.sample: with distinct in-range
positions over a duplicate-free population, the sampled list has the length
of the position list, is duplicate-free, and draws from the population. -/
theorem sample_filterMap_props (population : List Nat) (choose : List Nat)
    (hch : choose.Nodup) (hlt : ∀ i ∈ choose, i < population.length)
    (hpop : population.Nodup) :
    (choose.filterMap (fun i => population[i]?)).length = choose.length ∧
    (choose.filterMap (fun i => population[i]?)).Nodup ∧
    ∀ x ∈ choose.filterMap (fun i => population[i]?), x ∈ population := by
  induction choose with
  | nil => simp
  | cons i rest ih =>
    have hi : i < population.length := hlt i (List.mem_cons_self i rest)
    have hch' := List.nodup_cons.mp hch
    obtain ⟨hl, hnd, hmem⟩ :=
      ih hch'.2 (fun j hj => hlt j (List.mem_cons_of_mem i hj))
    have hget : population[i]? = some population[i] := List.getElem?_eq_getElem hi
    refine ⟨by simp [List.filterMap_cons, hget, hl], ?_, ?_⟩
    · simp only [List.filterMap_cons, hget, List.nodup_cons]
      refine ⟨?_, hnd⟩
      intro hx
      obtain ⟨j, hj, hjv⟩ := List.mem_filterMap.mp hx
      have hij : i = j := by
        apply List.getElem?_inj hi hpop
        rw [hget, hjv]
      exact hch'.1 (hij ▸ hj)
    · intro x hx
      simp only [List.filterMap_cons, hget, List.mem_cons] at hx
      rcases hx with rfl | hx'
      · exact List.getElem_mem hi
      · exact hmem x hx'

/-- Claim C6: swap_medoids with an old medoid whose identifier is absent
raises the list.remove ValueError and leaves the state untouched; with the
identifier present it removes that identifier and appends the identifier of
the new medoid. -/
theorem c6_swap_error_handling (a : KMedoidsAlgorithm) (old nw : Point) :
    (old.idx ∉ a.medoids_indices →
      a.swap_medoids old nw =
        (a, .error (.valueError "list.remove(x): x not in list"))) ∧
    (old.idx ∈ a.medoids_indices →
      a.swap_medoids old nw =
        ({ a with medoids_indices := a.medoids_indices.erase old.idx ++ [nw.idx] },
         .ok ())) := by
  constructor
  · intro h
    rw [KMedoidsAlgorithm.swap_medoids, if_neg h]
  · intro h
    rw [KMedoidsAlgorithm.swap_medoids, if_pos h]

/-- Witness for C6 at a concrete input: swapping out an identifier that is
not a medoid fails and returns the state unchanged. -/
theorem c6_witness :
    (9 ∉ algoW.medoids_indices) ∧
    algoW.swap_medoids (mkPt 9 0) (mkPt 2 1) =
      (algoW, .error (.valueError "list.remove(x): x not in list")) :=
  ⟨by decide, (c6_swap_error_handling algoW (mkPt 9 0) (mkPt 2 1)).1 (by decide)⟩

/-- Claim C5 (amended): the medoid identifier invariant (exactly clusters_num
distinct identifiers of points) holds after construction with a valid random
draw, and is preserved by swap_medoids when the old medoid is current and the
identifier of the new medoid is not among the remaining medoid identifiers;
the length of medoids_indices is preserved by every successful swap. -/
theorem c5_medoids_invariant (points : List Point) (clusters_num : Int)
    (labels : Option (List String)) (choose : List Nat) :
    ((points.map Point.idx).Nodup → choose.Nodup → (∀ i ∈ choose, i < points.length) →
      (choose.length : Int) = clusters_num →
      ∀ a, KMedoidsAlgorithm.init points clusters_num labels choose = .ok a →
        MedoidsInvariant a) ∧
    (∀ (b : KMedoidsAlgorithm) (old nw : Point), MedoidsInvariant b →
      old.idx ∈ b.medoids_indices →
      nw.idx ∈ b.points.map Point.idx →
      nw.idx ∉ b.medoids_indices.erase old.idx →
      (b.swap_medoids old nw).2 = .ok () ∧
      (b.swap_medoids old nw).1.medoids_indices.length = b.medoids_indices.length ∧
      MedoidsInvariant (b.swap_medoids old nw).1) := by
  constructor
  · intro hids hch hlt hlen a ha
    rw [KMedoidsAlgorithm.init] at ha
    by_cases hc : labelsTruthy labels ∧ ¬((labelsLen labels : Int) = clusters_num)
    · rw [if_pos hc] at ha
      exact absurd ha (by simp)
    · rw [if_neg hc, random_sample] at ha
      by_cases hcond : 0 ≤ clusters_num ∧ clusters_num ≤ ((points.map Point.idx).length : Int)
      · rw [if_pos hcond] at ha
        simp only [Except.map, Except.ok.injEq] at ha
        obtain ⟨hl, hnd, hmem⟩ := sample_filterMap_props (points.map Point.idx) choose hch
          (by simpa using hlt) hids
        subst ha
        refine ⟨?_, hnd, ?_⟩
        · show (choose.filterMap (fun i => (points.map Point.idx)[i]?)).length =
            clusters_num.toNat
          rw [hl]
          omega
        · intro i hi
          exact hmem i hi
      · rw [if_neg hcond] at ha
        exact absurd ha (by simp [Except.map])
  · intro b old nw hInv hold hnwmem hnwnotin
    obtain ⟨hlen, hnd, hmem⟩ := hInv
    have hswap : b.swap_medoids old nw =
        ({ b with medoids_indices := b.medoids_indices.erase old.idx ++ [nw.idx] },
         .ok ()) := by
      rw [KMedoidsAlgorithm.swap_medoids, if_pos hold]
    rw [hswap]
    have hle : (b.medoids_indices.erase old.idx).length = b.medoids_indices.length - 1 :=
      List.length_erase_of_mem hold
    have hpos : 0 < b.medoids_indices.length := List.length_pos_of_mem hold
    have hlen' : (b.medoids_indices.erase old.idx ++ [nw.idx]).length =
        b.medoids_indices.length := by
      simp [hle]
      omega
    refine ⟨rfl, hlen', ?_, ?_, ?_⟩
    · rw [hlen']
      exact hlen
    · rw [List.nodup_append]
      exact ⟨hnd.erase _, List.nodup_singleton _, List.disjoint_singleton.mpr hnwnotin⟩
    · intro i hi
      rcases List.mem_append.mp hi with hi' | hi'
      · exact hmem i (List.mem_of_mem_erase hi')
      · rcases List.mem_singleton.mp hi' with rfl
        exact hnwmem

/-- Witness for the amended C5 at a concrete input: swapping medoid 1 for
the non-medoid point 3 preserves the invariant. -/
theorem c5_witness :
    (MedoidsInvariant algoW ∧ (mkPt 1 0).idx ∈ algoW.medoids_indices ∧
     (mkPt 3 5).idx ∈ algoW.points.map Point.idx ∧
     (mkPt 3 5).idx ∉ algoW.medoids_indices.erase (mkPt 1 0).idx) ∧
    ((algoW.swap_medoids (mkPt 1 0) (mkPt 3 5)).2 = .ok () ∧
     (algoW.swap_medoids (mkPt 1 0) (mkPt 3 5)).1.medoids_indices.length =
       algoW.medoids_indices.length ∧
     MedoidsInvariant (algoW.swap_medoids (mkPt 1 0) (mkPt 3 5)).1) :=
  ⟨⟨by unfold MedoidsInvariant; decide, by decide, by decide, by decide⟩,
   (c5_medoids_invariant ptsW 2 Option.none [0, 1]).2 algoW (mkPt 1 0) (mkPt 3 5)
     (by unfold MedoidsInvariant; decide) (by decide) (by decide) (by decide)⟩

/-- Counterexample to C5 as stated: swapping out medoid 1 for the point with
identifier 2, which is already a medoid, yields the duplicated medoid list
[2, 2]: the swap does not preserve distinctness for arbitrary new medoids
drawn from the point collection. -/
theorem c5_counterexample :
    MedoidsInvariant algoW ∧
    (mkPt 2 1).idx ∈ algoW.points.map Point.idx ∧
    (algoW.swap_medoids (mkPt 1 0) (mkPt 2 1)).2 = .ok () ∧
    (algoW.swap_medoids (mkPt 1 0) (mkPt 2 1)).1.medoids_indices = [2, 2] ∧
    ¬ (algoW.swap_medoids (mkPt 1 0) (mkPt 2 1)).1.medoids_indices.Nodup := by
  refine ⟨by unfold MedoidsInvariant; decide, by decide, by decide, by decide, by decide⟩

/-- Claim C7 (amended): construction with a supplied non-empty labels list
whose length differs from clusters_num raises the label-count ValueError
whatever the random draw would have been (the check precedes sampling);
construction with labels of matching length, or with no labels, proceeds
straight to sampling without raising this error. -/
theorem c7_label_count_check (points : List Point) (clusters_num : Int)
    (l : List String) (choose : List Nat) :
    (l ≠ [] → (l.length : Int) ≠ clusters_num →
      KMedoidsAlgorithm.init points clusters_num (some l) choose =
        .error (.valueError
          "Number of labels needs to be the same as the number of clusters.")) ∧
    ((l.length : Int) = clusters_num →
      KMedoidsAlgorithm.init points clusters_num (some l) choose =
        (random_sample (points.map Point.idx) clusters_num choose).map
          (fun mi =>
            { points := points, clusters_num := clusters_num, labels := some l,
              medoids_indices := mi })) ∧
    (KMedoidsAlgorithm.init points clusters_num Option.none choose =
      (random_sample (points.map Point.idx) clusters_num choose).map
        (fun mi =>
          { points := points, clusters_num := clusters_num, labels := Option.none,
            medoids_indices := mi })) := by
  refine ⟨?_, ?_, ?_⟩
  · intro h1 h2
    have hc : labelsTruthy (some l) ∧ ¬((labelsLen (some l) : Int) = clusters_num) := by
      constructor
      · simp [labelsTruthy, h1]
      · simpa [labelsLen] using h2
    rw [KMedoidsAlgorithm.init, if_pos hc]
  · intro h1
    have hc : ¬ (labelsTruthy (some l) ∧ ¬((labelsLen (some l) : Int) = clusters_num)) := by
      intro ⟨_, hne⟩
      exact hne (by simpa [labelsLen] using h1)
    rw [KMedoidsAlgorithm.init, if_neg hc]
  · have hc : ¬ (labelsTruthy (Option.none : Option (List String)) ∧
        ¬((labelsLen (Option.none : Option (List String)) : Int) = clusters_num)) := by
      intro ⟨ht, _⟩
      simp [labelsTruthy] at ht
    rw [KMedoidsAlgorithm.init, if_neg hc]

/-- Witness for the amended C7 at a concrete input: one label with two
clusters raises the label-count error. -/
theorem c7_witness :
    ((["a"] : List String) ≠ [] ∧ (((["a"] : List String).length : Int) ≠ 2)) ∧
    KMedoidsAlgorithm.init ptsW 2 (some ["a"]) [0, 1] =
      .error (.valueError
        "Number of labels needs to be the same as the number of clusters.") :=
  ⟨⟨by decide, by decide⟩,
   (c7_label_count_check ptsW 2 ["a"] [0, 1]).1 (by decide) (by decide)⟩

/-- Counterexample to C7 as stated: an empty labels list is supplied and its
length 0 differs from clusters_num = 2, yet construction succeeds (the
Python truthiness test skips the check for an empty list) and medoids are
sampled. -/
theorem c7_counterexample :
    ((([] : List String).length : Int) ≠ 2) ∧
    KMedoidsAlgorithm.init ptsW 2 (some []) [0, 1] =
      .ok { points := ptsW, clusters_num := 2, labels := some [],
            medoids_indices := [1, 2] } := by
  refine ⟨by decide, ?_⟩
  norm_num [KMedoidsAlgorithm.init, labelsTruthy, labelsLen, random_sample, mkPt, ptsW,
    Except.map, List.filterMap]

/-- Claim C8 (amended): construction raises the sampling ValueError exactly
when clusters_num is negative or exceeds the number of points; for
1 <= clusters_num <= number of points (with a valid random draw and distinct
point identifiers) construction succeeds and medoids_indices holds
clusters_num identifiers drawn without replacement from the point
identifiers. -/
theorem c8_construction_range (points : List Point) (clusters_num : Int)
    (choose : List Nat) :
    ((clusters_num < 0 ∨ (points.length : Int) < clusters_num) →
      KMedoidsAlgorithm.init points clusters_num Option.none choose =
        .error (.valueError "Sample larger than population or is negative")) ∧
    (1 ≤ clusters_num → clusters_num ≤ (points.length : Int) →
      choose.Nodup → (∀ i ∈ choose, i < points.length) →
      (choose.length : Int) = clusters_num → (points.map Point.idx).Nodup →
      ∃ a, KMedoidsAlgorithm.init points clusters_num Option.none choose = .ok a ∧
        a.points = points ∧ a.clusters_num = clusters_num ∧
        (a.medoids_indices.length : Int) = clusters_num ∧
        a.medoids_indices.Nodup ∧
        ∀ x ∈ a.medoids_indices, x ∈ points.map Point.idx) := by
  have hlab : ¬ (labelsTruthy (Option.none : Option (List String)) ∧
      ¬((labelsLen (Option.none : Option (List String)) : Int) = clusters_num)) := by
    intro ⟨ht, _⟩
    simp [labelsTruthy] at ht
  constructor
  · intro h
    have hcond : ¬ (0 ≤ clusters_num ∧
        clusters_num ≤ (((points.map Point.idx).length : Nat) : Int)) := by
      simp only [List.length_map]
      rcases h with h | h
      · intro ⟨h0, _⟩; omega
      · intro ⟨_, h1⟩; omega
    rw [KMedoidsAlgorithm.init, if_neg hlab, random_sample, if_neg hcond]
    rfl
  · intro h1 h2 hch hlt hlen hids
    have hcond : 0 ≤ clusters_num ∧
        clusters_num ≤ (((points.map Point.idx).length : Nat) : Int) := by
      simp only [List.length_map]
      omega
    obtain ⟨hl, hnd, hmem⟩ := sample_filterMap_props (points.map Point.idx) choose hch
      (by simpa using hlt) hids
    refine ⟨⟨points, clusters_num, Option.none,
        choose.filterMap (fun i => (points.map Point.idx)[i]?)⟩,
      ?_, rfl, rfl, ?_, hnd, hmem⟩
    · rw [KMedoidsAlgorithm.init, if_neg hlab, random_sample, if_pos hcond]
      rfl
    · show ((choose.filterMap (fun i => (points.map Point.idx)[i]?)).length : Int) =
        clusters_num
      rw [hl]
      exact hlen

/-- Witness for the amended C8 at concrete inputs: three points with
clusters_num 4 raise the sampling error; clusters_num 2 succeeds with two
distinct sampled identifiers. -/
theorem c8_witness :
    ((4 : Int) > (ptsW.length : Int) ∧
     KMedoidsAlgorithm.init ptsW 4 Option.none [0, 1] =
       .error (.valueError "Sample larger than population or is negative")) ∧
    (∃ a, KMedoidsAlgorithm.init ptsW 2 Option.none [0, 1] = .ok a ∧
      a.points = ptsW ∧ a.clusters_num = 2 ∧
      (a.medoids_indices.length : Int) = 2 ∧
      a.medoids_indices.Nodup ∧
      ∀ x ∈ a.medoids_indices, x ∈ ptsW.map Point.idx) :=
  ⟨⟨by decide,
    (c8_construction_range ptsW 4 [0, 1]).1 (Or.inr (by decide))⟩,
   (c8_construction_range ptsW 2 [0, 1]).2 (by decide) (by decide) (by decide)
     (by decide) (by decide) (by decide)⟩

/-- Counterexample to C8 as stated: clusters_num = 0 is non-positive, yet
construction succeeds with an empty medoid list (CPython random.sample
accepts k = 0). -/
theorem c8_counterexample :
    ((0 : Int) ≤ 0) ∧
    KMedoidsAlgorithm.init [mkPt 1 0] 0 Option.none [] =
      .ok { points := [mkPt 1 0], clusters_num := 0, labels := Option.none,
            medoids_indices := [] } := by
  refine ⟨by decide, ?_⟩
  norm_num [KMedoidsAlgorithm.init, labelsTruthy, labelsLen, random_sample, mkPt,
    Except.map]

/-- A key that is absent from the key column looks up to none. -/
theorem alookup_eq_none_of_not_mem {α β : Type} [DecidableEq α] (k : α) :
    ∀ (l : List (α × β)), k ∉ l.map Prod.fst → alookup k l = Option.none := by
  intro l
  induction l with
  | nil => intro _; rfl
  | cons kv rest ih =>
    intro h
    obtain ⟨k', v⟩ := kv
    simp only [List.map_cons, List.mem_cons] at h
    push_neg at h
    rw [alookup, if_neg (fun hc => h.1 hc.symm)]
    exact ih h.2

/-- A key present in the key column looks up to some value. -/
theorem alookup_isSome_of_mem {α β : Type} [DecidableEq α] (k : α) :
    ∀ (l : List (α × β)), k ∈ l.map Prod.fst → ∃ v, alookup k l = some v := by
  intro l
  induction l with
  | nil => intro h; simp at h
  | cons kv rest ih =>
    intro h
    obtain ⟨k', v⟩ := kv
    by_cases hk : k' = k
    · exact ⟨v, by rw [alookup, if_pos hk]⟩
    · simp only [List.map_cons, List.mem_cons] at h
      rcases h with h | h
      · exact absurd h.symm hk
      · obtain ⟨w, hw⟩ := ih h
        exact ⟨w, by rw [alookup, if_neg hk]; exact hw⟩

/-- A binding of a key that appears only once looks up to its value. -/
theorem alookup_of_mem_of_nodup {α β : Type} [DecidableEq α] (k : α) (v : β) :
    ∀ (l : List (α × β)), (k, v) ∈ l → (l.map Prod.fst).Nodup →
      alookup k l = some v := by
  intro l
  induction l with
  | nil => intro h _; simp at h
  | cons kv rest ih =>
    intro h hnd
    obtain ⟨k', v'⟩ := kv
    simp only [List.map_cons, List.nodup_cons] at hnd
    rcases List.mem_cons.mp h with heq | htail
    · have hk : k = k' := congrArg Prod.fst heq
      have hv : v = v' := congrArg Prod.snd heq
      rw [alookup, if_pos hk.symm, hv]
    · have hmemk : k ∈ rest.map Prod.fst := List.mem_map.mpr ⟨(k, v), htail, rfl⟩
      have hne : ¬ (k' = k) := by
        intro hkk
        exact hnd.1 (by rw [hkk]; exact hmemk)
      rw [alookup, if_neg hne]
      exact ih htail hnd.2

/-- Lookup distributes over append: a key of the left part is found there. -/
theorem alookup_append_of_mem {α β : Type} [DecidableEq α] (k : α) :
    ∀ (l₁ l₂ : List (α × β)), k ∈ l₁.map Prod.fst →
      alookup k (l₁ ++ l₂) = alookup k l₁ := by
  intro l₁
  induction l₁ with
  | nil => intro l₂ h; simp at h
  | cons kv rest ih =>
    intro l₂ h
    obtain ⟨k', v⟩ := kv
    by_cases hk : k' = k
    · rw [List.cons_append, alookup, if_pos hk, alookup, if_pos hk]
    · simp only [List.map_cons, List.mem_cons] at h
      rcases h with h | h
      · exact absurd h.symm hk
      · rw [List.cons_append, alookup, if_neg hk, alookup, if_neg hk]
        exact ih l₂ h

/-- Lookup distributes over append: a key absent on the left is looked up on
the right. -/
theorem alookup_append_of_not_mem {α β : Type} [DecidableEq α] (k : α) :
    ∀ (l₁ l₂ : List (α × β)), k ∉ l₁.map Prod.fst →
      alookup k (l₁ ++ l₂) = alookup k l₂ := by
  intro l₁
  induction l₁ with
  | nil => intro l₂ _; rfl
  | cons kv rest ih =>
    intro l₂ h
    obtain ⟨k', v⟩ := kv
    simp only [List.map_cons, List.mem_cons] at h
    push_neg at h
    rw [List.cons_append, alookup, if_neg (fun hc => h.1 hc.symm)]
    exact ih l₂ h.2

/-- Looking up a key in an association list built by re-keying each entry by
its own key yields the keyed value. -/
theorem alookup_map_keyed {α β γ : Type} [DecidableEq α] (k : α) (F : α → γ) :
    ∀ (l : List (α × β)), k ∈ l.map Prod.fst →
      alookup k (l.map (fun kv => (kv.1, F kv.1))) = some (F k) := by
  intro l
  induction l with
  | nil => intro h; simp at h
  | cons kv rest ih =>
    intro h
    obtain ⟨k', v⟩ := kv
    by_cases hk : k' = k
    · rw [List.map_cons]
      rw [alookup, if_pos hk, hk]
    · simp only [List.map_cons, List.mem_cons] at h
      rcases h with h | h
      · exact absurd h.symm hk
      · rw [List.map_cons, alookup, if_neg hk]
        exact ih h

/-- dfAppend does not change the key column. -/
theorem dfAppend_keys (rows : List (String × List Cell)) (k : String) (v : Cell) :
    (dfAppend rows k v).map Prod.fst = rows.map Prod.fst := by
  unfold dfAppend
  rw [List.map_map]
  apply List.map_congr_left
  intro col _
  by_cases h : col.1 = k <;> simp [h]

/-- appendItems with records whose (distinct) keys all are columns appends
exactly one cell to every column holding one of the keys. -/
theorem appendItems_ok :
    ∀ (items : List (String × Cell)) (rows : List (String × List Cell)),
      (∀ k ∈ items.map Prod.fst, k ∈ rows.map Prod.fst) →
      (items.map Prod.fst).Nodup →
      appendItems rows items =
        .ok (rows.map (fun col => (col.1, col.2 ++ (alookup col.1 items).toList))) := by
  intro items
  induction items with
  | nil =>
    intro rows _ _
    rw [appendItems]
    congr 1
    apply Eq.symm
    apply List.map_congr_left ?_ |>.trans (List.map_id rows)
    intro col _
    simp [alookup]
  | cons kv rest ih =>
    intro rows hsub hnd
    obtain ⟨k, v⟩ := kv
    have hk : k ∈ rows.map Prod.fst := hsub k (by simp)
    simp only [List.map_cons, List.nodup_cons] at hnd
    rw [appendItems, if_pos hk]
    rw [ih (dfAppend rows k v)
      (fun k' hk' => by rw [dfAppend_keys]; exact hsub k' (List.mem_cons_of_mem _ hk'))
      hnd.2]
    congr 1
    unfold dfAppend
    rw [List.map_map]
    apply List.map_congr_left
    intro col _
    by_cases hc : col.1 = k
    · have hrest : alookup col.1 rest = Option.none := by
        apply alookup_eq_none_of_not_mem
        rw [hc]
        exact hnd.1
      simp only [Function.comp, if_pos hc]
      rw [alookup, if_pos hc.symm]
      simp [hrest]
    · simp only [Function.comp, if_neg hc]
      rw [alookup, if_neg (fun hcc => hc hcc.symm)]

/-- The key column of a re-valued association list is unchanged. -/
theorem map_revalue_keys {α β γ : Type} (rows : List (α × β)) (g : α × β → γ) :
    (rows.map (fun col => (col.1, g col))).map Prod.fst = rows.map Prod.fst := by
  rw [List.map_map]
  apply List.map_congr_left
  intro col _
  rfl

/-- Folding appendItems over points whose records share the (distinct) key
column of the accumulator appends, column by column, the cell of each point
in order. -/
theorem foldl_appendItems_ok (ks : List String) (hnd : ks.Nodup) :
    ∀ (pts : List Point) (rows : List (String × List Cell)),
      rows.map Prod.fst = ks →
      (∀ p ∈ pts, p.get_data.map Prod.fst = ks) →
      List.foldlM (fun rows p => appendItems rows p.get_data) rows pts =
        .ok (rows.map (fun col => (col.1, col.2 ++ pts.map (fun p => rowVal p col.1)))) := by
  intro pts
  induction pts with
  | nil =>
    intro rows hkeys _
    rw [List.foldlM]
    congr 1
    apply Eq.symm
    apply List.map_congr_left ?_ |>.trans (List.map_id rows)
    intro col _
    simp
  | cons p rest ih =>
    intro rows hkeys hall
    have hp : p.get_data.map Prod.fst = ks := hall p (List.mem_cons_self p rest)
    have happ := appendItems_ok p.get_data rows
      (fun k hk => by rw [hkeys]; rw [hp] at hk; exact hk)
      (by rw [hp]; exact hnd)
    rw [List.foldlM_cons, happ]
    have hbind : ∀ (r : List (String × List Cell))
        (f : List (String × List Cell) → Except PyErr (List (String × List Cell))),
        (Except.ok r : Except PyErr (List (String × List Cell))) >>= f = f r :=
      fun r f => rfl
    rw [hbind]
    rw [ih _ (by rw [map_revalue_keys]; exact hkeys) (fun q hq => hall q (List.mem_cons_of_mem p hq))]
    congr 1
    rw [List.map_map]
    apply List.map_congr_left
    intro col hcol
    have hcolk : col.1 ∈ ks := by
      rw [← hkeys]
      exact List.mem_map.mpr ⟨col, hcol, rfl⟩
    have hlook : alookup col.1 p.get_data = some (rowVal p col.1) := by
      obtain ⟨v, hv⟩ := alookup_isSome_of_mem col.1 p.get_data (by rw [hp]; exact hcolk)
      rw [hv, rowVal, hv]
      rfl
    simp only [Function.comp, hlook, Option.toList, List.map_cons]
    rw [List.append_assoc]
    rfl

/-- Every current medoid identifier is bound in the label mapper, provided
the medoid list has exactly clusters_num entries. -/
theorem mapper_covers (a : KMedoidsAlgorithm)
    (hK : a.medoids_indices.length = a.clusters_num.toNat) :
    ∀ i ∈ a.medoids_indices, ∃ lab, dictLookup a.get_labels_mapper i = some lab := by
  intro i hi
  have hkeys : i ∈ a.get_labels_mapper.map Prod.fst := by
    rw [KMedoidsAlgorithm.get_labels_mapper]
    rcases hlabs : a.labels with _ | l
    · show i ∈ (a.medoids_indices.enum.map
        (fun pr => (pr.2, Label.pos pr.1))).map Prod.fst
      rw [List.map_map]
      show i ∈ List.map Prod.snd a.medoids_indices.enum
      rw [List.enum_map_snd]
      exact hi
    · by_cases hcase : ((!l.isEmpty) = true ∧ (l.length : Int) = a.clusters_num)
      · show i ∈ (if (!l.isEmpty) = true ∧ (l.length : Int) = a.clusters_num then
            (l.zip a.medoids_indices).map (fun pr => (pr.2, Label.str pr.1))
          else
            a.medoids_indices.enum.map (fun pr => (pr.2, Label.pos pr.1))).map Prod.fst
        rw [if_pos hcase, List.map_map]
        show i ∈ List.map Prod.snd (l.zip a.medoids_indices)
        rw [List.map_snd_zip]
        · exact hi
        · have hle : (l.length : Int) = a.clusters_num := hcase.2
          omega
      · show i ∈ (if (!l.isEmpty) = true ∧ (l.length : Int) = a.clusters_num then
            (l.zip a.medoids_indices).map (fun pr => (pr.2, Label.str pr.1))
          else
            a.medoids_indices.enum.map (fun pr => (pr.2, Label.pos pr.1))).map Prod.fst
        rw [if_neg hcase, List.map_map]
        show i ∈ List.map Prod.snd a.medoids_indices.enum
        rw [List.enum_map_snd]
        exact hi
  rw [dictLookup]
  apply alookup_isSome_of_mem
  rw [List.map_reverse]
  exact List.mem_reverse.mpr hkeys

/-- Claim C9: for every orchestrator with at least one point whose points
share one duplicate-free record key column (the five assignment columns plus
the coordinate names, none named cluster), whose assignments have been
computed against the current medoids, and whose medoid list has clusters_num
entries, get_result_df succeeds and yields one cell per point in every
column: the identifier, nearest and second-nearest medoid references and
distances, every original coordinate under its name, and a cluster column
holding the resolved label of the nearest medoid of each point. -/
theorem c9_materialize_results (a : KMedoidsAlgorithm) (p0 : Point) (rest : List Point)
    (hpts : a.points = p0 :: rest)
    (hkeys : ∀ p ∈ a.points, p.get_data.map Prod.fst = p0.get_data.map Prod.fst)
    (hnd : (p0.get_data.map Prod.fst).Nodup)
    (hcl : "cluster" ∉ p0.get_data.map Prod.fst)
    (hassigned : ∀ p ∈ a.points, ∃ ni, p.nearest_medoid = PyRef.ref ni ∧
      ni ∈ a.medoids_indices)
    (hK : a.medoids_indices.length = a.clusters_num.toNat) :
    ∃ df, a.get_result_df = .ok df ∧
      df.map Prod.fst = p0.get_data.map Prod.fst ++ ["cluster"] ∧
      (∀ col ∈ df, col.2.length = a.points.length) ∧
      (∀ k ∈ p0.get_data.map Prod.fst,
        alookup k df = some (a.points.map (fun p => rowVal p k))) ∧
      (∀ p ∈ a.points,
        rowVal p "idx" = Cell.nat p.idx ∧
        rowVal p "nearest_medoid" = refCell p.nearest_medoid ∧
        rowVal p "nearest_medoid_distance" = Cell.flt p.nearest_medoid_distance ∧
        rowVal p "second_nearest_medoid" = refCell p.second_nearest_medoid ∧
        rowVal p "second_nearest_medoid_distance" =
          Cell.flt p.second_nearest_medoid_distance) ∧
      (∀ p ∈ a.points, ∀ nm q, (nm, q) ∈ p.coordinates → rowVal p nm = Cell.coord q) ∧
      (alookup "cluster" df =
        some (a.points.map
          (fun p => replaceCell a.get_labels_mapper (rowVal p "nearest_medoid")))) ∧
      (∀ p ∈ a.points, ∃ ni lab, p.nearest_medoid = PyRef.ref ni ∧
        dictLookup a.get_labels_mapper ni = some lab ∧
        replaceCell a.get_labels_mapper (rowVal p "nearest_medoid") = Cell.lab lab) := by
  have hrowfacts : ∀ p ∈ a.points,
      rowVal p "idx" = Cell.nat p.idx ∧
      rowVal p "nearest_medoid" = refCell p.nearest_medoid ∧
      rowVal p "nearest_medoid_distance" = Cell.flt p.nearest_medoid_distance ∧
      rowVal p "second_nearest_medoid" = refCell p.second_nearest_medoid ∧
      rowVal p "second_nearest_medoid_distance" =
        Cell.flt p.second_nearest_medoid_distance := by
    intro p hp
    have hvnd : (p.get_data.map Prod.fst).Nodup := by
      rw [hkeys p hp]
      exact hnd
    refine ⟨?_, ?_, ?_, ?_, ?_⟩
    · have h1 : alookup "idx" p.get_data = some (Cell.nat p.idx) :=
        alookup_of_mem_of_nodup _ _ p.get_data (by simp [Point.get_data]) hvnd
      rw [rowVal, h1]
      rfl
    · have h1 : alookup "nearest_medoid" p.get_data = some (refCell p.nearest_medoid) :=
        alookup_of_mem_of_nodup _ _ p.get_data (by simp [Point.get_data]) hvnd
      rw [rowVal, h1]
      rfl
    · have h1 : alookup "nearest_medoid_distance" p.get_data =
          some (Cell.flt p.nearest_medoid_distance) :=
        alookup_of_mem_of_nodup _ _ p.get_data (by simp [Point.get_data]) hvnd
      rw [rowVal, h1]
      rfl
    · have h1 : alookup "second_nearest_medoid" p.get_data =
          some (refCell p.second_nearest_medoid) :=
        alookup_of_mem_of_nodup _ _ p.get_data (by simp [Point.get_data]) hvnd
      rw [rowVal, h1]
      rfl
    · have h1 : alookup "second_nearest_medoid_distance" p.get_data =
          some (Cell.flt p.second_nearest_medoid_distance) :=
        alookup_of_mem_of_nodup _ _ p.get_data (by simp [Point.get_data]) hvnd
      rw [rowVal, h1]
      rfl
  have hcoordfacts : ∀ p ∈ a.points, ∀ nm q, (nm, q) ∈ p.coordinates →
      rowVal p nm = Cell.coord q := by
    intro p hp nm q hmem
    have hvnd : (p.get_data.map Prod.fst).Nodup := by
      rw [hkeys p hp]
      exact hnd
    have h1 : alookup nm p.get_data = some (Cell.coord q) := by
      apply alookup_of_mem_of_nodup _ _ p.get_data ?_ hvnd
      simp only [Point.get_data, List.mem_append, List.mem_map]
      exact Or.inr ⟨(nm, q), hmem, rfl⟩
    rw [rowVal, h1]
    rfl
  have hresolve : ∀ p ∈ a.points, ∃ ni lab, p.nearest_medoid = PyRef.ref ni ∧
      dictLookup a.get_labels_mapper ni = some lab ∧
      replaceCell a.get_labels_mapper (rowVal p "nearest_medoid") = Cell.lab lab := by
    intro p hp
    obtain ⟨ni, href, hmi⟩ := hassigned p hp
    obtain ⟨lab, hlab⟩ := mapper_covers a hK ni hmi
    refine ⟨ni, lab, href, hlab, ?_⟩
    have h2 := (hrowfacts p hp).2.1
    rw [h2, href]
    show replaceCell a.get_labels_mapper (Cell.nat ni) = Cell.lab lab
    rw [replaceCell, hlab]
  have hrows0keys : (p0.get_data.map (fun kv => (kv.1, ([] : List Cell)))).map Prod.fst =
      p0.get_data.map Prod.fst := map_revalue_keys p0.get_data _
  have hfold := foldl_appendItems_ok (p0.get_data.map Prod.fst) hnd a.points
    (p0.get_data.map (fun kv => (kv.1, ([] : List Cell)))) hrows0keys hkeys
  have hbase : (p0.get_data.map (fun kv => (kv.1, ([] : List Cell)))).map
      (fun col => (col.1, col.2 ++ a.points.map (fun p => rowVal p col.1))) =
      p0.get_data.map (fun kv => (kv.1, a.points.map (fun p => rowVal p kv.1))) := by
    rw [List.map_map]
    apply List.map_congr_left
    intro kv _
    simp [Function.comp]
  rw [hbase] at hfold
  have hdfkeys : (p0.get_data.map
      (fun kv => (kv.1, a.points.map (fun p => rowVal p kv.1)))).map Prod.fst =
      p0.get_data.map Prod.fst := map_revalue_keys p0.get_data _
  have hnm_mem : "nearest_medoid" ∈ p0.get_data.map Prod.fst := by
    simp [Point.get_data]
  have hnmcol : alookup "nearest_medoid"
      (p0.get_data.map (fun kv => (kv.1, a.points.map (fun p => rowVal p kv.1)))) =
      some (a.points.map (fun p => rowVal p "nearest_medoid")) :=
    alookup_map_keyed "nearest_medoid"
      (fun k => a.points.map (fun p => rowVal p k)) p0.get_data hnm_mem
  have hclks : "cluster" ∉ (p0.get_data.map
      (fun kv => (kv.1, a.points.map (fun p => rowVal p kv.1)))).map Prod.fst := by
    rw [hdfkeys]
    exact hcl
  have hdf : a.get_result_df =
      .ok (p0.get_data.map (fun kv => (kv.1, a.points.map (fun p => rowVal p kv.1))) ++
        [("cluster", (a.points.map (fun p => rowVal p "nearest_medoid")).map
          (replaceCell a.get_labels_mapper))]) := by
    rw [hpts] at hfold hnmcol hclks
    simp only [KMedoidsAlgorithm.get_result_df, hpts, hfold, hnmcol]
    rw [dfSetColumn, if_neg hclks]
  refine ⟨_, hdf, ?_, ?_, ?_, hrowfacts, hcoordfacts, ?_, hresolve⟩
  · rw [List.map_append, hdfkeys]
    rfl
  · intro col hcol
    rcases List.mem_append.mp hcol with hc | hc
    · obtain ⟨kv, _, rfl⟩ := List.mem_map.mp hc
      simp
    · rcases List.mem_singleton.mp hc with rfl
      simp
  · intro k hk
    rw [alookup_append_of_mem k _ _ (by rw [hdfkeys]; exact hk)]
    exact alookup_map_keyed k (fun k => a.points.map (fun p => rowVal p k)) p0.get_data hk
  · rw [alookup_append_of_not_mem _ _ _ hclks]
    rw [alookup, if_pos rfl, List.map_map]
    rfl

/-- Witness for C9 at a concrete input: a two-point, one-medoid orchestrator
with computed assignments materialises a table with the record columns plus
cluster, each of length two. -/
theorem c9_witness :
    algoR.points = asgPt1 :: [asgPt2] ∧
    ∃ df, algoR.get_result_df = .ok df ∧
      df.map Prod.fst = asgPt1.get_data.map Prod.fst ++ ["cluster"] ∧
      (∀ col ∈ df, col.2.length = algoR.points.length) := by
  refine ⟨rfl, ?_⟩
  obtain ⟨df, h1, h2, h3, _⟩ := c9_materialize_results algoR asgPt1 [asgPt2] rfl
    (by decide) (by decide) (by decide)
    (by
      intro p hp
      rcases List.mem_cons.mp hp with rfl | hp2
      · exact ⟨1, rfl, by decide⟩
      · rcases List.mem_singleton.mp hp2 with rfl
        exact ⟨1, rfl, by decide⟩)
    (by decide)
  exact ⟨df, h1, h2, h3⟩
